import Mathlib

/-!
Verification of the local-hub Farcaster plugin core against its
natural-language specification.

The definitions below are a shallow embedding of the decision core found in
`src/index.ts` and `src/hub-api-client.ts`:

* the Farcaster/Unix epoch converter (`farcasterToUnix`, `unixToFarcaster`);
* the keyword relevance classifier (`evaluateRelevance`);
* the quota/dedup ledger carried in `LocalHubConfig` together with its daily
  reset (`resetDailyCountersIfNeeded`);
* the two interaction-lane loops (`respondToMentions`,
  `scanChannelsForCasts`) and the write dispatcher (`likeCast`);
* the read-side mention fetcher (`HubApiClient.getMentions`).

JavaScript numbers holding integer configuration values and protocol
timestamps are modelled as `Int`/`Nat`.  The wall-clock value
`Date.now() / 1000` is a float with fractional seconds; it is modelled as an
integer parameter `now : ℤ` (seconds since the Unix epoch).  The sub-second
fraction and float rounding can only matter when a cast's age lands exactly
on the max-age boundary, which none of the verified properties depend on.
JavaScript `Set<string>` is modelled as a `List String` with
insert-if-absent (`setAdd`) and membership.  Asynchronous collaborator calls
are modelled as explicit oracles (`HubLike` for the write path, a response
value for the read path); a thrown JS exception is an `Except.error`.  Each
lane loop returns the updated ledger state together with the ordered list of
dispatch events it issued; every dispatch event records a snapshot of the
ledger as it was at the instant the suspending write call was issued, which
is what the ordering claims are about.

Connection-oriented configuration fields (endpoint URLs, credentials, timer
intervals) are never read by the modelled decision core and are omitted from
the embedded `LocalHubConfig`.
-/

-- ============================================================================
-- FARCASTER TIMESTAMP HANDLING  (src/index.ts, lines 38-55)
-- ============================================================================

/-- Farcaster epoch: January 1, 2021 00:00:00 UTC, in Unix seconds. -/
def FARCASTER_EPOCH : ℤ := 1609459200

/-- Convert a Farcaster timestamp to a Unix timestamp (seconds since 1970). -/
def farcasterToUnix (farcasterTimestamp : ℤ) : ℤ :=
  farcasterTimestamp + FARCASTER_EPOCH

/-- Convert a Unix timestamp to a Farcaster timestamp. -/
def unixToFarcaster (unixTimestamp : ℤ) : ℤ :=
  unixTimestamp - FARCASTER_EPOCH

-- ============================================================================
-- CONFIGURATION + RUNTIME LEDGER STATE  (src/index.ts, lines 74-100)
-- ============================================================================

/-- JavaScript `Set.add`: insert-if-absent on the modelled hash set. -/
def setAdd (s : List String) (x : String) : List String :=
  if x ∈ s then s else x :: s

/-- The `LocalHubConfig` record of `src/index.ts` restricted to the fields the
decision core reads or writes.  The last six fields are the runtime
quota/dedup ledger state. -/
structure LocalHubConfig where
  fid : ℤ
  dryRun : Bool
  maxDailyReplies : ℕ
  maxDailyLikes : ℕ
  maxDailyPosts : ℕ
  scanKeywords : List String
  maxCastAge : ℤ
  repliedToHashes : List String
  likedHashes : List String
  dailyReplies : ℕ
  dailyLikes : ℕ
  dailyPosts : ℕ
  lastResetDate : String
deriving DecidableEq

-- ============================================================================
-- DAILY RESET  (src/index.ts, lines 126-137)
-- ============================================================================

/-- Function `resetDailyCountersIfNeeded` from `src/index.ts`.  The ambient
`new Date().toDateString()` value is passed in as `today`; the source's
null-check on `localConfig` is discharged by passing the config explicitly. -/
def resetDailyCountersIfNeeded (today : String) (cfg : LocalHubConfig) :
    LocalHubConfig :=
  if cfg.lastResetDate ≠ today then
    { cfg with
      dailyReplies := 0
      dailyLikes := 0
      dailyPosts := 0
      lastResetDate := today
      repliedToHashes := []
      likedHashes := [] }
  else
    cfg

-- ============================================================================
-- RELEVANCE CLASSIFIER  (src/index.ts, lines 142-178)
-- ============================================================================

/-- Substring test on character lists: true iff `sub` occurs as a contiguous
run inside the second list.  This is the semantics of JavaScript
`String.prototype.includes`. -/
def charsContain (sub : List Char) : List Char → Bool
  | [] => sub.isEmpty
  | c :: rest => sub.isPrefixOf (c :: rest) || charsContain sub rest

/-- JavaScript `text.includes(sub)` on strings. -/
def strIncludes (text sub : String) : Bool :=
  charsContain sub.toList text.toList

/-- JavaScript `text.toLowerCase()`: per-character lowercasing, expressed as
a map over the underlying character list (the same model as core's
`String.toLower`, stated on `String.data` so that it evaluates by kernel
reduction). -/
def strToLower (s : String) : String :=
  String.mk (s.data.map Char.toLower)

/-- The hardcoded high-tier keyword list of `evaluateRelevance`. -/
def highKeywords : List String :=
  ["ethereum", "defi", "web3", "nft", "crypto", "blockchain", "dapp",
   "smart contract"]

/-- The hardcoded medium-tier keyword list of `evaluateRelevance`. -/
def mediumKeywords : List String :=
  ["airdrop", "treasury", "proposal", "vote", "community", "decentralized",
   "web3"]

/-- Function `evaluateRelevance` from `src/index.ts`: case-fold, count keyword
substring matches per tier, then bucket.  The two counting loops of the
source are `List.countP` over the respective keyword lists. -/
def evaluateRelevance (text : String) : String :=
  let lowerText := strToLower text
  let highMatches := highKeywords.countP (fun kw => strIncludes lowerText kw)
  let mediumMatches :=
    mediumKeywords.countP (fun kw => strIncludes lowerText kw)
  if 1 ≤ highMatches then "high"
  else if 2 ≤ mediumMatches then "medium"
  else "low"

-- ============================================================================
-- READ-SIDE DATA MODEL  (src/hub-api-client.ts, lines 19-42, 323-346)
-- ============================================================================

/-- Record `HubUser` from `src/hub-api-client.ts`. -/
structure HubUser where
  fid : ℤ
  username : String
  displayName : String
  pfpUrl : String
  bio : String
deriving DecidableEq

/-- Record `HubCast` from `src/hub-api-client.ts`. -/
structure HubCast where
  hash : String
  fid : ℤ
  text : String
  timestamp : ℤ
  parentHash : Option String
  parentFid : Option ℤ
  parentUrl : Option String
  mentions : List ℤ
  mentionsPositions : List ℤ
  embeds : List String
deriving DecidableEq

/-- Record `CastWithAuthor` from `src/hub-api-client.ts`. -/
structure CastWithAuthor extends HubCast where
  author : HubUser
deriving DecidableEq

/-- A raw hub message as consumed by `parseCastMessage`: the fields the parser
reads, each optional where the source defensively defaults it.  An embed
entry whose `url` field is missing is `none`. -/
structure RawCastMessage where
  hash : String
  typeIsCastAdd : Bool
  fid : Option ℤ
  text : Option String
  timestamp : Option ℤ
  parentHash : Option String
  parentFid : Option ℤ
  parentUrl : Option String
  mentions : Option (List ℤ)
  mentionsPositions : Option (List ℤ)
  embeds : List (Option String)
deriving DecidableEq

/-- The body of an HTTP fetch that completed: the `ok` flag and the parsed
`data.messages` array (`data.messages || []` already applied). -/
structure FetchResponse where
  ok : Bool
  messages : List RawCastMessage
deriving DecidableEq

namespace HubApiClient

/-- Method `parseCastMessage` from `src/hub-api-client.ts`: defensive defaulting of
missing payload fields (`|| 0`, `|| ""`, `|| null`, `|| []`), and
`embeds.map(e => e.url).filter(Boolean)` which drops missing and empty
locators. -/
def parseCastMessage (msg : RawCastMessage) : HubCast :=
  { hash := msg.hash
    fid := msg.fid.getD 0
    text := msg.text.getD ""
    timestamp := msg.timestamp.getD 0
    parentHash := msg.parentHash
    parentFid := msg.parentFid
    parentUrl := msg.parentUrl
    mentions := msg.mentions.getD []
    mentionsPositions := msg.mentionsPositions.getD []
    embeds := (msg.embeds.filterMap id).filter (fun u => !u.isEmpty) }

end HubApiClient

/-- The comparator `(a, b) => b.timestamp - a.timestamp` passed to the sort in
`getMentions`: `a` precedes `b` when `a`'s timestamp is at least `b`'s
(newest first). -/
def castOrder (a b : CastWithAuthor) : Prop :=
  b.timestamp ≤ a.timestamp

instance : DecidableRel castOrder :=
  fun a b => inferInstanceAs (Decidable (b.timestamp ≤ a.timestamp))

instance : IsTotal CastWithAuthor castOrder :=
  ⟨fun a b => le_total b.timestamp a.timestamp⟩

instance : IsTrans CastWithAuthor castOrder :=
  ⟨fun _ _ _ hab hbc => le_trans hbc hab⟩

namespace HubApiClient

/-- Method `getMentions` from `src/hub-api-client.ts`.  The HTTP layer is an input:
`resp` is `Except.error ()` when `fetch`/`json()` threw (the outer catch
returns `[]`), otherwise the completed response.  `users` is the
`getUser` resolver, which never throws (it catches internally and falls back
to a default profile).  `fid` only enters the request URL.  The JavaScript
stable sort with comparator `b.timestamp - a.timestamp` is insertion sort by
`castOrder`, and `slice(0, limit)` is `take`. -/
def getMentions (fid : ℤ) (limit : ℕ) (users : ℤ → HubUser)
    (resp : Except Unit FetchResponse) : List CastWithAuthor :=
  match resp with
  | Except.error _ => []
  | Except.ok r =>
    if !r.ok then []
    else
      let casts : List CastWithAuthor :=
        (r.messages.filter (fun m => m.typeIsCastAdd)).map
          (fun m =>
            let cast := parseCastMessage m
            { toHubCast := cast, author := users cast.fid })
      ((casts.insertionSort castOrder).take limit)

end HubApiClient

-- ============================================================================
-- CYCLE CONTROLLER: LIKE DISPATCH AND THE TWO LANE LOOPS
-- (src/index.ts, lines 402-489)
-- ============================================================================

/-- Snapshot of the quota/dedup ledger fields, recorded at the instant a
write dispatch is issued. -/
structure LedgerSnap where
  repliedToHashes : List String
  likedHashes : List String
  dailyReplies : ℕ
  dailyLikes : ℕ
deriving DecidableEq

/-- Extract the ledger snapshot from the live config. -/
def ledgerSnap (cfg : LocalHubConfig) : LedgerSnap :=
  { repliedToHashes := cfg.repliedToHashes
    likedHashes := cfg.likedHashes
    dailyReplies := cfg.dailyReplies
    dailyLikes := cfg.dailyLikes }

/-- Observable events of a lane run: a like dispatch issued to the Write
Collaborator (`hubClient.likeCast`), tagged with the ledger state as it was
when the suspending call was issued. -/
inductive TraceEv where
  | dispatchLike (targetFid : ℤ) (targetHash : String) (snap : LedgerSnap)
deriving DecidableEq

/-- The Write Collaborator's like endpoint as an oracle: for a target it
either completes (`Except.ok`) or throws (`Except.error`). -/
def HubLike : Type := ℤ → String → Except String Unit

/-- A Write Collaborator whose every like call succeeds. -/
def alwaysOkHub : HubLike := fun _ _ => Except.ok ()

/-- A Write Collaborator whose every like call throws. -/
def alwaysFailHub : HubLike := fun _ _ => Except.error "network error"

/-- Function `likeCast` from `src/index.ts` (lines 473-489).  Under `dryRun` it
returns before contacting the hub; otherwise it awaits the hub call —
recorded as a `dispatchLike` event carrying the current ledger snapshot —
and catches any error internally, so the function itself always completes
normally (`Except.ok`). -/
def likeCast (cfg : LocalHubConfig) (hub : HubLike)
    (targetFid : ℤ) (targetHash : String) :
    Except String Unit × List TraceEv :=
  if cfg.dryRun then
    (Except.ok (), [])
  else
    match hub targetFid targetHash with
    | Except.ok _ =>
      (Except.ok (), [TraceEv.dispatchLike targetFid targetHash (ledgerSnap cfg)])
    | Except.error _ =>
      (Except.ok (), [TraceEv.dispatchLike targetFid targetHash (ledgerSnap cfg)])

/-- The mention-lane loop of `respondToMentions` (src/index.ts, lines
409-432), over the already-fetched mention list.  Per cast, in source
order: dedup skip, daily-cap break, self skip, age skip; then
`await likeCast(...)` followed by the dedup insert and counter increment.
A `likeCast` that threw would abort the loop into the enclosing catch,
leaving the state as-is (this branch is present for fidelity even though
`likeCast` never throws).  Returns the final config and the ordered
dispatch events. -/
def respondToMentions (hub : HubLike) (now : ℤ) (cfg : LocalHubConfig) :
    List CastWithAuthor → LocalHubConfig × List TraceEv
  | [] => (cfg, [])
  | cast :: rest =>
    if cast.hash ∈ cfg.repliedToHashes then
      respondToMentions hub now cfg rest
    else if cfg.maxDailyReplies ≤ cfg.dailyReplies then
      (cfg, [])
    else if cast.fid = cfg.fid then
      respondToMentions hub now cfg rest
    else if cfg.maxCastAge < now - farcasterToUnix cast.timestamp then
      respondToMentions hub now cfg rest
    else
      match likeCast cfg hub cast.fid cast.hash with
      | (Except.ok _, evs) =>
        let cfg2 := { cfg with
          repliedToHashes := setAdd cfg.repliedToHashes cast.hash
          dailyReplies := cfg.dailyReplies + 1 }
        let r := respondToMentions hub now cfg2 rest
        (r.1, evs ++ r.2)
      | (Except.error _, evs) => (cfg, evs)

/-- The channel-lane loop of `scanChannelsForCasts` (src/index.ts, lines
451-467), over the already-fetched channel casts.  Per cast, in source
order: daily-cap break, self skip, dedup skip, age skip; then relevance
classification, and only for "high"/"medium" the awaited dispatch followed
by the dedup insert and counter increment. -/
def scanChannelsForCasts (hub : HubLike) (now : ℤ) (cfg : LocalHubConfig) :
    List CastWithAuthor → LocalHubConfig × List TraceEv
  | [] => (cfg, [])
  | cast :: rest =>
    if cfg.maxDailyLikes ≤ cfg.dailyLikes then
      (cfg, [])
    else if cast.fid = cfg.fid then
      scanChannelsForCasts hub now cfg rest
    else if cast.hash ∈ cfg.likedHashes then
      scanChannelsForCasts hub now cfg rest
    else if cfg.maxCastAge < now - farcasterToUnix cast.timestamp then
      scanChannelsForCasts hub now cfg rest
    else
      let relevance := evaluateRelevance cast.text
      if relevance = "high" ∨ relevance = "medium" then
        match likeCast cfg hub cast.fid cast.hash with
        | (Except.ok _, evs) =>
          let cfg2 := { cfg with
            likedHashes := setAdd cfg.likedHashes cast.hash
            dailyLikes := cfg.dailyLikes + 1 }
          let r := scanChannelsForCasts hub now cfg2 rest
          (r.1, evs ++ r.2)
        | (Except.error _, evs) => (cfg, evs)
      else
        scanChannelsForCasts hub now cfg rest

-- ============================================================================
-- HELPER LEMMAS
-- ============================================================================

/-- Lemma: `likeCast` always completes normally; it dispatches exactly one like
event unless in dry-run mode, and the event snapshots the ledger passed in. -/
theorem likeCast_eq (cfg : LocalHubConfig) (hub : HubLike)
    (targetFid : ℤ) (targetHash : String) :
    likeCast cfg hub targetFid targetHash =
      (Except.ok (),
        if cfg.dryRun then []
        else [TraceEv.dispatchLike targetFid targetHash (ledgerSnap cfg)]) := by
  unfold likeCast
  cases h : cfg.dryRun
  · simp only [Bool.false_eq_true, if_false]
    cases hub targetFid targetHash <;> rfl
  · simp

/-- Once the reply cap is met, the mention loop changes nothing and
dispatches nothing (already-handled casts are still skipped silently). -/
theorem respondToMentions_capped (hub : HubLike) (now : ℤ) :
    ∀ (l : List CastWithAuthor) (cfg : LocalHubConfig),
      cfg.maxDailyReplies ≤ cfg.dailyReplies →
      respondToMentions hub now cfg l = (cfg, [])
  | [], cfg, _ => rfl
  | cast :: rest, cfg, hcap => by
    by_cases h1 : cast.hash ∈ cfg.repliedToHashes
    · simp only [respondToMentions, h1, if_true]
      exact respondToMentions_capped hub now rest cfg hcap
    · simp [respondToMentions, h1, hcap]

/-- Once the like cap is met, the channel loop breaks immediately. -/
theorem scanChannelsForCasts_capped (hub : HubLike) (now : ℤ)
    (l : List CastWithAuthor) (cfg : LocalHubConfig)
    (hcap : cfg.maxDailyLikes ≤ cfg.dailyLikes) :
    scanChannelsForCasts hub now cfg l = (cfg, []) := by
  cases l <;> simp [scanChannelsForCasts, hcap]

-- ============================================================================
-- CLAIM THEOREMS
-- ============================================================================

/-- Claim C2: for every integer `t`, `farcasterToUnix t = t + 1609459200`,
the two converters round-trip in both directions, and
`farcasterToUnix 0 = 1609459200`.  Both functions are pure total Lean
functions on all of `ℤ`, so totality on negative inputs is inherent. -/
theorem epoch_conversion_roundtrip (t : ℤ) :
    farcasterToUnix t = t + 1609459200
    ∧ unixToFarcaster (farcasterToUnix t) = t
    ∧ farcasterToUnix (unixToFarcaster t) = t
    ∧ farcasterToUnix 0 = 1609459200 := by
  unfold farcasterToUnix unixToFarcaster FARCASTER_EPOCH
  refine ⟨rfl, by omega, by omega, rfl⟩

/-- Claim C6: the daily reset rewrites the ledger exactly when the stored day
label differs from the current date — zeroing the three counters, clearing
both dedup sets and updating the day label — and does nothing otherwise; in
particular an immediately repeated check on the same date is a no-op. -/
theorem daily_reset_exactly_on_new_day (today : String) (cfg : LocalHubConfig) :
    resetDailyCountersIfNeeded today cfg =
      (if cfg.lastResetDate = today then cfg
       else
        { cfg with
          dailyReplies := 0
          dailyLikes := 0
          dailyPosts := 0
          repliedToHashes := []
          likedHashes := []
          lastResetDate := today })
    ∧ resetDailyCountersIfNeeded today (resetDailyCountersIfNeeded today cfg) =
        resetDailyCountersIfNeeded today cfg := by
  constructor
  · unfold resetDailyCountersIfNeeded
    by_cases h : cfg.lastResetDate = today <;> simp [h]
  · unfold resetDailyCountersIfNeeded
    by_cases h : cfg.lastResetDate = today <;> simp [h]

/-- Claim C7: `evaluateRelevance` case-folds its input and returns "high"
iff at least one high-tier keyword occurs as a substring, otherwise "medium"
iff at least two distinct medium-tier keywords occur (the tier lists are
duplicate-free, so the match count is a count of distinct keywords),
otherwise "low"; the high-tier check takes priority, a single medium match
stays "low", and the empty text is "low".  Determinism, totality and
side-effect freedom are inherent in it being a Lean function. -/
theorem evaluateRelevance_classification (text : String) :
    (evaluateRelevance text = "high" ↔
      ∃ kw ∈ highKeywords, strIncludes (strToLower text) kw = true)
    ∧ (evaluateRelevance text = "medium" ↔
        ((¬ ∃ kw ∈ highKeywords, strIncludes (strToLower text) kw = true)
          ∧ 2 ≤ mediumKeywords.countP (fun kw => strIncludes (strToLower text) kw)))
    ∧ (evaluateRelevance text = "low" ↔
        ((¬ ∃ kw ∈ highKeywords, strIncludes (strToLower text) kw = true)
          ∧ mediumKeywords.countP (fun kw => strIncludes (strToLower text) kw) ≤ 1))
    ∧ evaluateRelevance "" = "low"
    ∧ highKeywords.Nodup ∧ mediumKeywords.Nodup := by
  have hhigh :
      1 ≤ highKeywords.countP (fun kw => strIncludes (strToLower text) kw) ↔
        ∃ kw ∈ highKeywords, strIncludes (strToLower text) kw = true := by
    simpa using
      (List.countP_pos_iff
        (p := fun kw => strIncludes (strToLower text) kw) (l := highKeywords))
  refine ⟨?_, ?_, ?_, by decide, by decide, by decide⟩ <;>
    · unfold evaluateRelevance
      by_cases h1 :
          1 ≤ highKeywords.countP (fun kw => strIncludes (strToLower text) kw) <;>
        by_cases h2 :
            2 ≤ mediumKeywords.countP (fun kw => strIncludes (strToLower text) kw) <;>
        simp [h1, h2, ← hhigh] <;> omega

/-- Claim C8: for every fid and limit, `getMentions` returns a list sorted by
timestamp newest-first whose length is at most `limit`; a fetch that threw
(`Except.error`) or returned a non-ok HTTP status yields the empty list
instead of raising. -/
theorem getMentions_sorted_bounded_safe (fid : ℤ) (limit : ℕ)
    (users : ℤ → HubUser) (resp : Except Unit FetchResponse) (u : Unit)
    (r : FetchResponse) :
    (HubApiClient.getMentions fid limit users resp).length ≤ limit
    ∧ List.Sorted castOrder (HubApiClient.getMentions fid limit users resp)
    ∧ HubApiClient.getMentions fid limit users (Except.error u) = []
    ∧ HubApiClient.getMentions fid limit users
        (Except.ok { r with ok := false }) = [] := by
  refine ⟨?_, ?_, rfl, by simp [HubApiClient.getMentions]⟩
  · cases resp with
    | error e => simp [HubApiClient.getMentions]
    | ok rr =>
      by_cases h : rr.ok <;>
        simp [HubApiClient.getMentions, h, List.length_take]
  · cases resp with
    | error e => simp [HubApiClient.getMentions]
    | ok rr =>
      by_cases h : rr.ok <;> simp [HubApiClient.getMentions, h]
      exact
        List.Pairwise.sublist (List.take_sublist _ _)
          (List.sorted_insertionSort castOrder _)

/-- A cast older than the max-age threshold is invisible to the mention
lane: deleting it from the fetched batch does not change the run at all. -/
theorem respondToMentions_stale (hub : HubLike) (now : ℤ) (c : CastWithAuthor)
    (l2 : List CastWithAuthor) :
    ∀ (l1 : List CastWithAuthor) (cfg : LocalHubConfig),
      cfg.maxCastAge < now - farcasterToUnix c.timestamp →
      respondToMentions hub now cfg (l1 ++ c :: l2) =
        respondToMentions hub now cfg (l1 ++ l2)
  | [], cfg, hstale => by
    by_cases h1 : c.hash ∈ cfg.repliedToHashes
    · simp [respondToMentions, h1]
    · by_cases h2 : cfg.maxDailyReplies ≤ cfg.dailyReplies
      · simp [respondToMentions, h1, h2,
          respondToMentions_capped hub now l2 cfg h2]
      · by_cases h3 : c.fid = cfg.fid
        · simp [respondToMentions, h1, h2, h3]
        · simp [respondToMentions, h1, h2, h3, hstale]
  | a :: t, cfg, hstale => by
    have ih := fun cfg' h' => respondToMentions_stale hub now c l2 t cfg' h'
    by_cases h1 : a.hash ∈ cfg.repliedToHashes
    · simpa [respondToMentions, h1] using ih cfg hstale
    · by_cases h2 : cfg.maxDailyReplies ≤ cfg.dailyReplies
      · simp [respondToMentions, h1, h2]
      · by_cases h3 : a.fid = cfg.fid
        · simpa [respondToMentions, h1, h2, h3] using ih cfg hstale
        · by_cases h4 : cfg.maxCastAge < now - farcasterToUnix a.timestamp
          · simpa [respondToMentions, h1, h2, h3, h4] using ih cfg hstale
          · simp only [List.cons_append, respondToMentions, h1, h2, h3, h4,
              if_false, if_true, likeCast_eq, List.append_eq]
            rw [ih { cfg with
              repliedToHashes := setAdd cfg.repliedToHashes a.hash
              dailyReplies := cfg.dailyReplies + 1 } hstale]

/-- A cast older than the max-age threshold is invisible to the channel
lane: deleting it from the fetched batch does not change the run at all. -/
theorem scanChannelsForCasts_stale (hub : HubLike) (now : ℤ) (c : CastWithAuthor)
    (l2 : List CastWithAuthor) :
    ∀ (l1 : List CastWithAuthor) (cfg : LocalHubConfig),
      cfg.maxCastAge < now - farcasterToUnix c.timestamp →
      scanChannelsForCasts hub now cfg (l1 ++ c :: l2) =
        scanChannelsForCasts hub now cfg (l1 ++ l2)
  | [], cfg, hstale => by
    by_cases h1 : cfg.maxDailyLikes ≤ cfg.dailyLikes
    · simp [scanChannelsForCasts, h1,
        scanChannelsForCasts_capped hub now l2 cfg h1]
    · by_cases h2 : c.fid = cfg.fid
      · simp [scanChannelsForCasts, h1, h2]
      · by_cases h3 : c.hash ∈ cfg.likedHashes
        · simp [scanChannelsForCasts, h1, h2, h3]
        · simp [scanChannelsForCasts, h1, h2, h3, hstale]
  | a :: t, cfg, hstale => by
    have ih := fun cfg' h' => scanChannelsForCasts_stale hub now c l2 t cfg' h'
    by_cases h1 : cfg.maxDailyLikes ≤ cfg.dailyLikes
    · simp [scanChannelsForCasts, h1]
    · by_cases h2 : a.fid = cfg.fid
      · simpa [scanChannelsForCasts, h1, h2] using ih cfg hstale
      · by_cases h3 : a.hash ∈ cfg.likedHashes
        · simpa [scanChannelsForCasts, h1, h2, h3] using ih cfg hstale
        · by_cases h4 : cfg.maxCastAge < now - farcasterToUnix a.timestamp
          · simpa [scanChannelsForCasts, h1, h2, h3, h4] using ih cfg hstale
          · by_cases h5 :
              evaluateRelevance a.text = "high" ∨ evaluateRelevance a.text = "medium"
            · simp only [List.cons_append, scanChannelsForCasts, h1, h2, h3, h4, h5,
                if_false, if_true, likeCast_eq, List.append_eq]
              rw [ih { cfg with
                likedHashes := setAdd cfg.likedHashes a.hash
                dailyLikes := cfg.dailyLikes + 1 } hstale]
            · simpa [scanChannelsForCasts, h1, h2, h3, h4, h5] using ih cfg hstale

-- ============================================================================
-- CONCRETE FIXTURES FOR WITNESSES AND COUNTEREXAMPLES
-- ============================================================================

/-- A concrete configuration: defaults of `initializeFarcaster` (caps 15/30/3,
max age 14 days = 1209600 s), identity fid 777, live mode, empty ledger. -/
def cfgW : LocalHubConfig :=
  { fid := 777
    dryRun := false
    maxDailyReplies := 15
    maxDailyLikes := 30
    maxDailyPosts := 3
    scanKeywords := ["ethereum", "defi", "web3", "nft", "crypto", "blockchain"]
    maxCastAge := 1209600
    repliedToHashes := []
    likedHashes := []
    dailyReplies := 0
    dailyLikes := 0
    dailyPosts := 0
    lastResetDate := "Fri Nov 10 2023" }

/-- A concrete author profile distinct from the configured identity. -/
def userW : HubUser :=
  { fid := 42, username := "alice", displayName := "Alice", pfpUrl := "", bio := "" }

/-- Reference wall-clock instant for the concrete runs: 2023-11-14 22:13:20
UTC in Unix seconds. -/
def nowW : ℤ := 1700000000

/-- A channel cast whose protocol timestamp is exactly 20 days before `nowW`
(so its converted age, 1728000 s, exceeds the 14-day threshold). -/
def castStale : CastWithAuthor :=
  { hash := "0xstale"
    fid := 42
    text := "ethereum airdrop treasury"
    timestamp := 88812800
    parentHash := none
    parentFid := none
    parentUrl := none
    mentions := [777]
    mentionsPositions := [0]
    embeds := []
    author := userW }

/-- A fresh (1-day-old) mention from another author. -/
def castFresh : CastWithAuthor :=
  { hash := "0xfresh1"
    fid := 42
    text := "gm @agent what do you think"
    timestamp := 90454400
    parentHash := none
    parentFid := none
    parentUrl := none
    mentions := [777]
    mentionsPositions := [3]
    embeds := []
    author := userW }

/-- A second fresh (2-day-old) unseen mention from another author. -/
def castFresh2 : CastWithAuthor :=
  { hash := "0xfresh2"
    fid := 43
    text := "hey @agent take a look"
    timestamp := 90368000
    parentHash := none
    parentFid := none
    parentUrl := none
    mentions := [777]
    mentionsPositions := [4]
    embeds := []
    author := userW }

/-- A fresh non-self channel cast containing no tier keywords, so its
relevance classification is "low". -/
def castLow : CastWithAuthor :=
  { hash := "0xlow"
    fid := 42
    text := "gm frens, lovely weather in lisbon today"
    timestamp := 90454400
    parentHash := none
    parentFid := none
    parentUrl := none
    mentions := []
    mentionsPositions := []
    embeds := []
    author := userW }

/-- A fresh non-self channel cast containing a high-tier keyword. -/
def castHigh : CastWithAuthor :=
  { hash := "0xhigh"
    fid := 42
    text := "Ethereum protocol upgrade shipping next week"
    timestamp := 90454400
    parentHash := none
    parentFid := none
    parentUrl := none
    mentions := []
    mentionsPositions := []
    embeds := []
    author := userW }

/-- Claim C3: a fetched item whose converted age exceeds the max-age
threshold triggers no like dispatch and no counter or dedup change in
either lane: the run over a batch containing the stale item is identical,
in final ledger and in dispatch trace, to the run over the batch with the
stale item removed. -/
theorem stale_casts_never_dispatched (hub : HubLike) (now : ℤ)
    (cfg : LocalHubConfig) (c : CastWithAuthor) (l1 l2 : List CastWithAuthor)
    (hstale : cfg.maxCastAge < now - farcasterToUnix c.timestamp) :
    respondToMentions hub now cfg (l1 ++ c :: l2) =
      respondToMentions hub now cfg (l1 ++ l2)
    ∧ scanChannelsForCasts hub now cfg (l1 ++ c :: l2) =
        scanChannelsForCasts hub now cfg (l1 ++ l2) :=
  ⟨respondToMentions_stale hub now c l2 l1 cfg hstale,
   scanChannelsForCasts_stale hub now c l2 l1 cfg hstale⟩

/-- Witness for C3 at the spec's end-to-end scenario: a channel item 20 days
old against a 14-day max-age is never dispatched and leaves the ledger
untouched. -/
theorem stale_casts_never_dispatched_witness :
    scanChannelsForCasts alwaysOkHub nowW cfgW ([] ++ castStale :: []) =
      scanChannelsForCasts alwaysOkHub nowW cfgW ([] ++ [])
    ∧ scanChannelsForCasts alwaysOkHub nowW cfgW [castStale] = (cfgW, []) :=
  ⟨(stale_casts_never_dispatched alwaysOkHub nowW cfgW castStale [] []
      (by decide)).2,
   by decide⟩

/-- Configuration `cfgW` with the daily reply cap lowered to 1, for the cap scenario. -/
def cfgCap1 : LocalHubConfig :=
  { cfgW with maxDailyReplies := 1 }

/-- Claim C5: with the reply cap at 1 and a batch of two fresh, unseen,
non-self mentions, the mention lane dispatches exactly one like, the reply
counter becomes 1, and the loop breaks at the second mention's cap check —
everything after the second mention (`rest`) is never examined, so the
result does not depend on it. -/
theorem mention_cap_one_single_like (hub : HubLike) (now : ℤ)
    (cfg : LocalHubConfig) (c1 c2 : CastWithAuthor)
    (rest : List CastWithAuthor)
    (hcap : cfg.maxDailyReplies = 1) (hcount : cfg.dailyReplies = 0)
    (hdry : cfg.dryRun = false)
    (h1new : c1.hash ∉ cfg.repliedToHashes) (h1self : c1.fid ≠ cfg.fid)
    (h1fresh : ¬cfg.maxCastAge < now - farcasterToUnix c1.timestamp)
    (h2new : c2.hash ∉ cfg.repliedToHashes) (h2ne : c2.hash ≠ c1.hash) :
    respondToMentions hub now cfg (c1 :: c2 :: rest) =
      ({ cfg with
          repliedToHashes := setAdd cfg.repliedToHashes c1.hash
          dailyReplies := cfg.dailyReplies + 1 },
        [TraceEv.dispatchLike c1.fid c1.hash (ledgerSnap cfg)]) := by
  simp [respondToMentions, likeCast_eq, hdry, hcap, hcount, h1new, h1self,
    h1fresh, setAdd, h2ne, h2new]

/-- Witness for C5 at concrete inputs: cap 1, two fresh unseen mentions,
exactly one like dispatched and the counter at 1. -/
theorem mention_cap_one_single_like_witness :
    respondToMentions alwaysOkHub nowW cfgCap1 [castFresh, castFresh2] =
      ({ cfgCap1 with
          repliedToHashes := setAdd cfgCap1.repliedToHashes castFresh.hash
          dailyReplies := cfgCap1.dailyReplies + 1 },
        [TraceEv.dispatchLike castFresh.fid castFresh.hash
          (ledgerSnap cfgCap1)]) :=
  mention_cap_one_single_like alwaysOkHub nowW cfgCap1 castFresh castFresh2 []
    (by decide) (by decide) (by decide) (by decide) (by decide) (by decide)
    (by decide) (by decide)

/-- Claim C1 (evaluated at a failing input): in both lanes the suspending
dispatch to the Write Collaborator is issued BEFORE the dedup insert and
counter increment.  The single dispatch event of each concrete run below
carries a ledger snapshot, taken when the dispatch was issued, in which the
item's hash is not yet in the dedup set and the counter is still 0; the
commit only appears in the final state afterwards.  This contradicts the
claimed reserve-then-dispatch ordering. -/
theorem dispatch_issued_before_reservation_commit :
    respondToMentions alwaysOkHub nowW cfgW [castFresh] =
      ({ cfgW with repliedToHashes := ["0xfresh1"], dailyReplies := 1 },
        [TraceEv.dispatchLike 42 "0xfresh1" (ledgerSnap cfgW)])
    ∧ "0xfresh1" ∉ (ledgerSnap cfgW).repliedToHashes
    ∧ (ledgerSnap cfgW).dailyReplies = 0
    ∧ scanChannelsForCasts alwaysOkHub nowW cfgW [castHigh] =
        ({ cfgW with likedHashes := ["0xhigh"], dailyLikes := 1 },
          [TraceEv.dispatchLike 42 "0xhigh" (ledgerSnap cfgW)])
    ∧ "0xhigh" ∉ (ledgerSnap cfgW).likedHashes
    ∧ (ledgerSnap cfgW).dailyLikes = 0 := by
  decide

/-- Counterexample to claim C4: a fresh, non-self, not-yet-liked channel
item classified "low" consumes nothing — after the run the like counter and
the liked-hash set are exactly as before, so no dedup/counter slot was
reserved before (or after) classification. -/
theorem low_item_consumes_no_slot_cx :
    evaluateRelevance castLow.text = "low"
    ∧ castLow.fid ≠ cfgW.fid
    ∧ castLow.hash ∉ cfgW.likedHashes
    ∧ ¬cfgW.maxDailyLikes ≤ cfgW.dailyLikes
    ∧ ¬cfgW.maxCastAge < nowW - farcasterToUnix castLow.timestamp
    ∧ scanChannelsForCasts alwaysOkHub nowW cfgW [castLow] = (cfgW, []) := by
  decide

/-- Claim C4 as amended: in the channel-scan lane the checks that precede
relevance classification (cap, self, dedup membership, age) are read-only;
no reservation is taken before classification, and an item classified
"low" changes neither counter nor dedup set — the run is identical to the
run without it.  (The counter increment and dedup insert happen only for
"high"/"medium" items, after the dispatch call returns.) -/
theorem low_item_consumes_no_slot (hub : HubLike) (now : ℤ)
    (cfg : LocalHubConfig) (c : CastWithAuthor) (rest : List CastWithAuthor)
    (hself : c.fid ≠ cfg.fid) (hnew : c.hash ∉ cfg.likedHashes)
    (hfresh : ¬cfg.maxCastAge < now - farcasterToUnix c.timestamp)
    (hlow : evaluateRelevance c.text = "low") :
    scanChannelsForCasts hub now cfg (c :: rest) =
      scanChannelsForCasts hub now cfg rest := by
  by_cases hcap : cfg.maxDailyLikes ≤ cfg.dailyLikes
  · simp [scanChannelsForCasts, hcap,
      scanChannelsForCasts_capped hub now rest cfg hcap]
  · have hrel :
        ¬(evaluateRelevance c.text = "high" ∨ evaluateRelevance c.text = "medium") := by
      simp [hlow]
    simp [scanChannelsForCasts, hcap, hself, hnew, hfresh, hrel]

/-- Witness for the amended C4 at a concrete low-relevance item. -/
theorem low_item_consumes_no_slot_witness :
    scanChannelsForCasts alwaysOkHub nowW cfgW (castLow :: []) =
      scanChannelsForCasts alwaysOkHub nowW cfgW [] :=
  low_item_consumes_no_slot alwaysOkHub nowW cfgW castLow []
    (by decide) (by decide) (by decide) (by decide)

/-- The mention lane's final ledger and dispatch trace do not depend on
whether the Write Collaborator's calls succeed or fail: every run equals
the run against an always-succeeding collaborator. -/
theorem respondToMentions_hub_irrelevant (hub : HubLike) (now : ℤ) :
    ∀ (l : List CastWithAuthor) (cfg : LocalHubConfig),
      respondToMentions hub now cfg l = respondToMentions alwaysOkHub now cfg l
  | [], _ => rfl
  | a :: t, cfg => by
    have ih := fun cfg' => respondToMentions_hub_irrelevant hub now t cfg'
    by_cases h1 : a.hash ∈ cfg.repliedToHashes
    · simpa [respondToMentions, h1] using ih cfg
    · by_cases h2 : cfg.maxDailyReplies ≤ cfg.dailyReplies
      · simp [respondToMentions, h1, h2]
      · by_cases h3 : a.fid = cfg.fid
        · simpa [respondToMentions, h1, h2, h3] using ih cfg
        · by_cases h4 : cfg.maxCastAge < now - farcasterToUnix a.timestamp
          · simpa [respondToMentions, h1, h2, h3, h4] using ih cfg
          · simp only [respondToMentions, h1, h2, h3, h4, if_false, if_true,
              likeCast_eq]
            rw [ih { cfg with
              repliedToHashes := setAdd cfg.repliedToHashes a.hash
              dailyReplies := cfg.dailyReplies + 1 }]

/-- The channel lane's final ledger and dispatch trace do not depend on
whether the Write Collaborator's calls succeed or fail. -/
theorem scanChannelsForCasts_hub_irrelevant (hub : HubLike) (now : ℤ) :
    ∀ (l : List CastWithAuthor) (cfg : LocalHubConfig),
      scanChannelsForCasts hub now cfg l =
        scanChannelsForCasts alwaysOkHub now cfg l
  | [], _ => rfl
  | a :: t, cfg => by
    have ih := fun cfg' => scanChannelsForCasts_hub_irrelevant hub now t cfg'
    by_cases h1 : cfg.maxDailyLikes ≤ cfg.dailyLikes
    · simp [scanChannelsForCasts, h1]
    · by_cases h2 : a.fid = cfg.fid
      · simpa [scanChannelsForCasts, h1, h2] using ih cfg
      · by_cases h3 : a.hash ∈ cfg.likedHashes
        · simpa [scanChannelsForCasts, h1, h2, h3] using ih cfg
        · by_cases h4 : cfg.maxCastAge < now - farcasterToUnix a.timestamp
          · simpa [scanChannelsForCasts, h1, h2, h3, h4] using ih cfg
          · by_cases h5 :
              evaluateRelevance a.text = "high" ∨ evaluateRelevance a.text = "medium"
            · simp only [scanChannelsForCasts, h1, h2, h3, h4, h5, if_false,
                if_true, likeCast_eq]
              rw [ih { cfg with
                likedHashes := setAdd cfg.likedHashes a.hash
                dailyLikes := cfg.dailyLikes + 1 }]
            · simpa [scanChannelsForCasts, h1, h2, h3, h4, h5] using ih cfg

/-- Claim C9: `likeCast` catches every dispatch error internally and always
completes normally, so both lanes behave identically whatever the Write
Collaborator answers; concretely, against a collaborator whose every call
fails, a qualifying cast still gets its hash inserted into the dedup set
and the daily counter incremented — the failed like permanently consumes
that day's quota slot. -/
theorem failed_dispatch_still_consumes_quota :
    (∀ (cfg : LocalHubConfig) (hub : HubLike) (f : ℤ) (h : String),
      (likeCast cfg hub f h).1 = Except.ok ())
    ∧ (∀ (hub : HubLike) (now : ℤ) (cfg : LocalHubConfig)
        (casts : List CastWithAuthor),
        respondToMentions hub now cfg casts =
          respondToMentions alwaysOkHub now cfg casts
        ∧ scanChannelsForCasts hub now cfg casts =
            scanChannelsForCasts alwaysOkHub now cfg casts)
    ∧ respondToMentions alwaysFailHub nowW cfgW [castFresh] =
        ({ cfgW with repliedToHashes := ["0xfresh1"], dailyReplies := 1 },
          [TraceEv.dispatchLike 42 "0xfresh1" (ledgerSnap cfgW)])
    ∧ scanChannelsForCasts alwaysFailHub nowW cfgW [castHigh] =
        ({ cfgW with likedHashes := ["0xhigh"], dailyLikes := 1 },
          [TraceEv.dispatchLike 42 "0xhigh" (ledgerSnap cfgW)]) := by
  refine ⟨?_, ?_, by decide, by decide⟩
  · intro cfg hub f h
    rw [likeCast_eq]
  · intro hub now cfg casts
    exact ⟨respondToMentions_hub_irrelevant hub now casts cfg,
      scanChannelsForCasts_hub_irrelevant hub now casts cfg⟩

/-- Changing only `scanKeywords` changes nothing in a channel-scan run
except that same field carried through to the final state: same dispatch
trace, same classification decisions, same ledger updates. -/
theorem scanChannelsForCasts_keywords_eq (hub : HubLike) (now : ℤ)
    (ks : List String) :
    ∀ (l : List CastWithAuthor) (cfg : LocalHubConfig),
      scanChannelsForCasts hub now { cfg with scanKeywords := ks } l =
        ({ (scanChannelsForCasts hub now cfg l).1 with scanKeywords := ks },
          (scanChannelsForCasts hub now cfg l).2)
  | [], _ => rfl
  | a :: t, cfg => by
    have ih := fun cfg' => scanChannelsForCasts_keywords_eq hub now ks t cfg'
    by_cases h1 : cfg.maxDailyLikes ≤ cfg.dailyLikes
    · simp [scanChannelsForCasts, h1]
    · by_cases h2 : a.fid = cfg.fid
      · simpa [scanChannelsForCasts, h1, h2] using ih cfg
      · by_cases h3 : a.hash ∈ cfg.likedHashes
        · simpa [scanChannelsForCasts, h1, h2, h3] using ih cfg
        · by_cases h4 : cfg.maxCastAge < now - farcasterToUnix a.timestamp
          · simpa [scanChannelsForCasts, h1, h2, h3, h4] using ih cfg
          · by_cases h5 :
              evaluateRelevance a.text = "high" ∨ evaluateRelevance a.text = "medium"
            · simp only [scanChannelsForCasts, h1, h2, h3, h4, h5, if_false,
                if_true, likeCast_eq]
              rw [ih { cfg with
                likedHashes := setAdd cfg.likedHashes a.hash
                dailyLikes := cfg.dailyLikes + 1 }]
              rfl
            · simpa [scanChannelsForCasts, h1, h2, h3, h4, h5] using ih cfg

/-- Claim C10: the configured keyword list never influences relevance
classification.  `evaluateRelevance` is a function of the text alone
(defined over the two hardcoded tier lists), and for any two configurations
that differ only in `scanKeywords` the channel-scan lane — the only
consumer of the classifier — produces the identical dispatch trace and
identical ledger updates. -/
theorem scanKeywords_never_influence_relevance (hub : HubLike) (now : ℤ)
    (cfg : LocalHubConfig) (ks : List String) (casts : List CastWithAuthor) :
    scanChannelsForCasts hub now { cfg with scanKeywords := ks } casts =
      ({ (scanChannelsForCasts hub now cfg casts).1 with scanKeywords := ks },
        (scanChannelsForCasts hub now cfg casts).2) :=
  scanChannelsForCasts_keywords_eq hub now ks casts cfg
